import Mathlib

/-!
Verification of the `dso-name-pseudonymizer` tool (`main.py`).

The program replaces "name-shaped" spans of a text document with pseudonyms.
Detection uses the Python regex `\b[A-Z][a-z]+\s[A-Z][a-z]+\b` applied with
`re.sub`, replacing each non-overlapping leftmost match by a freshly generated
pseudonym (`NamePseudonymizer._generate_pseudonym`): a uniformly random element
of a configured name list when that list is non-empty, otherwise a call into a
locale- and gender-aware synthetic name generator (the `faker` library).

We embed the program shallowly over `List Char`.  Character classes are the
ASCII reading of the Python classes used by the pattern (`[A-Z]`, `[a-z]`,
`\s`, and `\w` for the word boundary `\b`); the pattern itself only ever
consumes ASCII letters and one whitespace character.  Randomness and the
third-party name generator are oracles passed in as explicit arguments, and
the process-level control flow of `main` is modelled as a pure function over
an association-list file system that records every read and write.
-/

namespace DsoNamePseudonymizer

/-- ASCII class `[A-Z]` of the detection pattern. -/
def isUpperAZ (c : Char) : Bool := 'A' ≤ c && c ≤ 'Z'

/-- ASCII class `[a-z]` of the detection pattern. -/
def isLowerAZ (c : Char) : Bool := 'a' ≤ c && c ≤ 'z'

/-- ASCII class `[0-9]`. -/
def isDigit09 (c : Char) : Bool := '0' ≤ c && c ≤ '9'

/-- ASCII reading of the regex class `\w` (letters, digits, underscore),
used by the word boundary `\b`. -/
def isWordChar (c : Char) : Bool :=
  isUpperAZ c || isLowerAZ c || isDigit09 c || c = '_'

/-- ASCII reading of the regex class `\s`:
space, tab, newline, carriage return, vertical tab, form feed. -/
def isSpaceWS (c : Char) : Bool :=
  c = ' ' || c = '\t' || c = '\n' || c = '\r' || c = '\x0b' || c = '\x0c'

/-- Greedy run of `[a-z]+`: the number of leading ASCII lowercase letters and
the remainder of the list. -/
def takeLower : List Char → Nat × List Char
  | [] => (0, [])
  | c :: rest =>
    if isLowerAZ c then
      let (n, r) := takeLower rest
      (n + 1, r)
    else
      (0, c :: rest)

/--
Matching the pattern `\b[A-Z][a-z]+\s[A-Z][a-z]+\b` at the current position of
the text.  `prevWord` records whether the character immediately before the
current position is a `\w` character (`false` at the start of the text), which
decides the leading `\b` since the first pattern character is a word character.
Returns the length of the (unique) match at this position, or `none`.

Greediness of `[a-z]+` is resolved without backtracking: the token after each
`[a-z]+` (`\s`, respectively `\b` before a non-word character or the end) can
never match a lowercase letter, so shortening a greedy run cannot succeed.
-/
def matchLen (prevWord : Bool) : List Char → Option Nat
  | [] => none
  | c1 :: rest =>
    if prevWord then none
    else if isUpperAZ c1 then
      match takeLower rest with
      | (0, _) => none
      | (n1 + 1, rest1) =>
        match rest1 with
        | [] => none
        | s :: rest2 =>
          if isSpaceWS s then
            match rest2 with
            | [] => none
            | c2 :: rest3 =>
              if isUpperAZ c2 then
                match takeLower rest3 with
                | (0, _) => none
                | (n2 + 1, rest4) =>
                  match rest4 with
                  | [] => some (n1 + n2 + 5)
                  | d :: _ => if isWordChar d then none else some (n1 + n2 + 5)
              else none
          else none
    else none

/--
The scan performed by `re.sub(name_pattern, replace_name, text)` in
`NamePseudonymizer.pseudonymize_text`: at each position try to match; on a
match of length `n`, emit the `k`-th pseudonym (`gen k`, modelling the `k`-th
call to `replace_name`) and resume after the matched span (whose last
character is a lowercase letter, hence `prevWord := true`); otherwise copy one
character.  `fuel` is an upper bound on the remaining length, making the
recursion structural; `pseudonymize_text` instantiates it with the text
length, which is always sufficient.
-/
def pseudonymizeAux (gen : Nat → List Char) : Nat → Nat → Bool → List Char → List Char
  | 0, _, _, cs => cs
  | _ + 1, _, _, [] => []
  | fuel + 1, k, prevWord, c :: rest =>
    match matchLen prevWord (c :: rest) with
    | some n => gen k ++ pseudonymizeAux gen fuel (k + 1) true ((c :: rest).drop n)
    | none => c :: pseudonymizeAux gen fuel k (isWordChar c) rest

/-- `NamePseudonymizer.pseudonymize_text`, with the successive results of
`self._generate_pseudonym()` supplied as the oracle `gen`. -/
def pseudonymize_text (gen : Nat → List Char) (text : List Char) : List Char :=
  pseudonymizeAux gen text.length 0 false text

/--
The non-overlapping, left-to-right matches of the detection pattern in the
text, as `(start, length)` pairs of absolute positions (`re.finditer`): the
same scan as `pseudonymizeAux`, recording spans instead of substituting.
-/
def findSpansAux : Nat → Nat → Bool → List Char → List (Nat × Nat)
  | 0, _, _, _ => []
  | _ + 1, _, _, [] => []
  | fuel + 1, pos, prevWord, c :: rest =>
    match matchLen prevWord (c :: rest) with
    | some n => (pos, n) :: findSpansAux fuel (pos + n) true ((c :: rest).drop n)
    | none => findSpansAux fuel (pos + 1) (isWordChar c) rest

/-- The spans matched by the detection pattern in `text`, left to right. -/
def regexMatches (text : List Char) : List (Nat × Nat) :=
  findSpansAux text.length 0 false text

/-- The number of calls `re.sub` makes to `replace_name` (one per replaced
span): the same scan as `pseudonymizeAux`, counting substitutions. -/
def countAux : Nat → Bool → List Char → Nat
  | 0, _, _ => 0
  | _ + 1, _, [] => 0
  | fuel + 1, prevWord, c :: rest =>
    match matchLen prevWord (c :: rest) with
    | some n => countAux fuel true ((c :: rest).drop n) + 1
    | none => countAux fuel (isWordChar c) rest

/-- The number of spans `pseudonymize_text` replaces in `text`. -/
def replacedCount (text : List Char) : Nat :=
  countAux text.length false text

/--
Reassemble a text from its matched spans: given the suffix `cs` of the
original text starting at absolute position `pos`, and the remaining spans
(absolute `(start, length)` pairs, in order, all starting at or after `pos`),
copy the characters outside the spans verbatim and put `gen k` in place of the
`k`-th span.
-/
def render (gen : Nat → List Char) : Nat → Nat → List Char → List (Nat × Nat) → List Char
  | _, _, cs, [] => cs
  | k, pos, cs, (s, n) :: spans =>
    cs.take (s - pos) ++ gen k ++ render gen (k + 1) (s + n) (cs.drop (s - pos + n)) spans

/-- The gender filter accepted by the `--gender` CLI option. -/
inductive Gender
  | male
  | female
  deriving DecidableEq, Repr

/--
The third-party synthetic name generator (`faker.Faker`), as an oracle: each
field maps the configured locale and the index of the generation call to the
returned full name, modelling `fake.name_male()`, `fake.name_female()` and
`fake.name()` on the `Faker(locale)` instance.
-/
structure FakerOracle where
  name_male : String → Nat → List Char
  name_female : String → Nat → List Char
  name : String → Nat → List Char

/--
`NamePseudonymizer._generate_pseudonym`, for the `k`-th call: if the name list
is non-empty, `random.choice(self.names)` picks the entry at the random index
`rand k` reduced modulo the list length; otherwise dispatch on the gender
setting into the corresponding `faker` operation for the configured locale.
-/
def generate_pseudonym (names : List (List Char)) (gender : Option Gender)
    (locale : String) (fake : FakerOracle) (rand : Nat → Nat) (k : Nat) : List Char :=
  if names.isEmpty then
    match gender with
    | some Gender.male => fake.name_male locale k
    | some Gender.female => fake.name_female locale k
    | none => fake.name locale k
  else
    names.getD (rand k % names.length) []

/-!
### Name-list loading

`NamePseudonymizer.__init__` reads the name-list file with
`self.names = [line.strip() for line in f]`.
-/

/--
The lines produced by iterating over a Python text-mode file handle: each line
keeps its trailing `'\n'` terminator; a final line without a terminator is
still produced; the empty content yields no lines.
-/
def pythonLines : List Char → List (List Char)
  | [] => []
  | c :: rest =>
    if c = '\n' then ['\n'] :: pythonLines rest
    else
      match pythonLines rest with
      | [] => [[c]]
      | l :: ls => (c :: l) :: ls

/-- Python's `str.strip()`: remove leading and trailing whitespace. -/
def pyStrip (l : List Char) : List Char :=
  ((l.dropWhile isSpaceWS).reverse.dropWhile isSpaceWS).reverse

/-- The name list built by `NamePseudonymizer.__init__` from the content of
the name-list file: `[line.strip() for line in f]`. -/
def namesFromFile (content : List Char) : List (List Char) :=
  (pythonLines content).map pyStrip

/-- A file whose lines are `ls`, each terminated by a newline character. -/
def joinLinesNL : List (List Char) → List Char
  | [] => []
  | l :: ls => l ++ '\n' :: joinLinesNL ls

/-!
### Spec-words variant of the detection pattern (for comparison only)

The specification describes a name match as "one capitalized word, one space,
one capitalized word".  The following definitions are modelled from those
words — with the separator required to be exactly the space character `' '` —
to be compared against the source's pattern, whose separator class is `\s`.
-/

/-- Modelled from the spec's words: `matchLen` with the separator restricted
to the literal space character instead of the source's `\s` class. -/
def spaceSepMatchLen (prevWord : Bool) : List Char → Option Nat
  | [] => none
  | c1 :: rest =>
    if prevWord then none
    else if isUpperAZ c1 then
      match takeLower rest with
      | (0, _) => none
      | (n1 + 1, rest1) =>
        match rest1 with
        | [] => none
        | s :: rest2 =>
          if s = ' ' then
            match rest2 with
            | [] => none
            | c2 :: rest3 =>
              if isUpperAZ c2 then
                match takeLower rest3 with
                | (0, _) => none
                | (n2 + 1, rest4) =>
                  match rest4 with
                  | [] => some (n1 + n2 + 5)
                  | d :: _ => if isWordChar d then none else some (n1 + n2 + 5)
              else none
          else none
    else none

/-- Modelled from the spec's words: the span scan of `findSpansAux` driven by
`spaceSepMatchLen`. -/
def spaceSepSpansAux : Nat → Nat → Bool → List Char → List (Nat × Nat)
  | 0, _, _, _ => []
  | _ + 1, _, _, [] => []
  | fuel + 1, pos, prevWord, c :: rest =>
    match spaceSepMatchLen prevWord (c :: rest) with
    | some n => (pos, n) :: spaceSepSpansAux fuel (pos + n) true ((c :: rest).drop n)
    | none => spaceSepSpansAux fuel (pos + 1) (isWordChar c) rest

/-- Modelled from the spec's words: the spans of the text that match the
space-separated reading of the pattern. -/
def spaceSepMatches (text : List Char) : List (Nat × Nat) :=
  spaceSepSpansAux text.length 0 false text

/-!
### The process-level pipeline of `main`

`main` resolves configuration, constructs the `NamePseudonymizer` (which may
read the name-list file), opens the input file in binary mode for `chardet`
encoding detection, reopens and reads it as text, pseudonymizes, and writes
the output file.  We model it as a pure function over an association-list
file system, recording every attempted file open and the sole output write.
Encoding detection and decoding are modelled at the text level (the document
is a `List Char` throughout); they play no role in the claims.
-/

/-- A Python exception relevant to the pipeline. -/
inductive PyError
  | fileNotFound (path : String)
  deriving DecidableEq, Repr

/--
The fatal error message printed by `main` before `sys.exit(1)`:
`errorInit e` is `print(f"Error: {e}")` from the handler around the
`NamePseudonymizer` construction, and `errorUnexpected e` is
`print(f"An unexpected error occurred: {e}")` from the outer catch-all
handler.  (The dedicated `Error: Input file not found:` handler around the
text-mode reopen of the input file can never fire for a missing input file,
because the earlier unguarded binary-mode open for `chardet` raises first and
lands in the outer catch-all handler.)
-/
inductive Printed
  | errorInit (e : PyError)
  | errorUnexpected (e : PyError)
  deriving DecidableEq, Repr

/-- Whether a printed fatal message carries a `FileNotFoundError` (and hence
reads as a file-not-found style message to the user). -/
def Printed.fnfStyle : Printed → Bool
  | Printed.errorInit (PyError.fileNotFound _) => true
  | Printed.errorUnexpected (PyError.fileNotFound _) => true

/-- The observable outcome of one run of `main`. -/
structure RunResult where
  exitCode : Nat
  /-- The paths passed to `open(..)` for reading, in order. -/
  reads : List String
  /-- The output write, if it was reached: target path and written text. -/
  written : Option (String × List Char)
  /-- The fatal error message printed before exiting, if any. -/
  printed : Option Printed
  /-- Whether the warning that `--gender` is ignored in favour of
  `--name_list` was logged. -/
  warnedGenderIgnored : Bool
  deriving DecidableEq, Repr

/-- The part of `main` after the `NamePseudonymizer` was constructed with
name list `names`: binary-mode open of the input for `chardet`, text-mode
read, pseudonymization, output write. -/
def mainAfterInit (fs : List (String × List Char)) (input_file output_file : String)
    (names : List (List Char)) (gender : Option Gender) (locale : String)
    (fake : FakerOracle) (rand : Nat → Nat) (reads0 : List String)
    (warned : Bool) : RunResult :=
  match fs.lookup input_file with
  | none =>
    { exitCode := 1, reads := reads0 ++ [input_file], written := none,
      printed := some (Printed.errorUnexpected (PyError.fileNotFound input_file)),
      warnedGenderIgnored := warned }
  | some text =>
    { exitCode := 0, reads := reads0 ++ [input_file, input_file],
      written := some (output_file,
        pseudonymize_text (generate_pseudonym names gender locale fake rand) text),
      printed := none,
      warnedGenderIgnored := warned }

/-- One run of `main` over the file system `fs`, with the CLI options and the
randomness and `faker` oracles as arguments. -/
def runMain (fs : List (String × List Char)) (input_file output_file : String)
    (name_list : Option String) (gender : Option Gender) (locale : String)
    (fake : FakerOracle) (rand : Nat → Nat) : RunResult :=
  let warned := name_list.isSome && gender.isSome
  match name_list with
  | some p =>
    match fs.lookup p with
    | none =>
      { exitCode := 1, reads := [p], written := none,
        printed := some (Printed.errorInit (PyError.fileNotFound p)),
        warnedGenderIgnored := warned }
    | some content =>
      mainAfterInit fs input_file output_file (namesFromFile content) gender
        locale fake rand [p] warned
  | none =>
    mainAfterInit fs input_file output_file [] gender locale fake rand [] warned

/-! ### The substitution scan decomposes the text along the matched spans -/

theorem matchLen_pos {pw : Bool} {cs : List Char} {n : Nat}
    (h : matchLen pw cs = some n) : 0 < n := by
  cases cs with
  | nil => simp [matchLen] at h
  | cons c1 rest =>
    simp only [matchLen] at h
    split at h
    · exact absurd h (by simp)
    · split at h
      · split at h
        · exact absurd h (by simp)
        · split at h
          · exact absurd h (by simp)
          · split at h
            · split at h
              · exact absurd h (by simp)
              · split at h
                · split at h
                  · exact absurd h (by simp)
                  · split at h
                    · simp only [Option.some.injEq] at h
                      omega
                    · split at h
                      · exact absurd h (by simp)
                      · simp only [Option.some.injEq] at h
                        omega
                · exact absurd h (by simp)
            · exact absurd h (by simp)
      · exact absurd h (by simp)

theorem findSpansAux_start_ge :
    ∀ (fuel pos : Nat) (pw : Bool) (cs : List Char) (s n : Nat)
      (tl : List (Nat × Nat)),
      findSpansAux fuel pos pw cs = (s, n) :: tl → pos ≤ s := by
  intro fuel
  induction fuel with
  | zero => intro pos pw cs s n tl h; simp [findSpansAux] at h
  | succ fuel ih =>
    intro pos pw cs s n tl h
    cases cs with
    | nil => simp [findSpansAux] at h
    | cons c rest =>
      simp only [findSpansAux] at h
      cases hm : matchLen pw (c :: rest) with
      | some m =>
        rw [hm] at h
        have := (List.cons.injEq _ _ _ _).mp h
        have hps : pos = s := congrArg Prod.fst this.1
        omega
      | none =>
        rw [hm] at h
        have := ih (pos + 1) (isWordChar c) rest s n tl h
        omega

theorem render_cons (gen : Nat → List Char) (k pos : Nat) (c : Char)
    (rest : List Char) (spans : List (Nat × Nat))
    (h : ∀ s n tl, spans = (s, n) :: tl → pos + 1 ≤ s) :
    render gen k pos (c :: rest) spans = c :: render gen k (pos + 1) rest spans := by
  cases spans with
  | nil => rfl
  | cons p tl =>
    obtain ⟨s, n⟩ := p
    have hs : pos + 1 ≤ s := h s n tl rfl
    have h1 : s - pos = (s - (pos + 1)) + 1 := by omega
    simp only [render, h1]
    have h2 : s - (pos + 1) + 1 + n = (s - (pos + 1) + n) + 1 := by omega
    simp only [h2, List.take_succ_cons, List.drop_succ_cons, List.cons_append]

theorem pseudonymizeAux_eq_render (gen : Nat → List Char) :
    ∀ (fuel k : Nat) (pw : Bool) (pos : Nat) (cs : List Char),
      cs.length ≤ fuel →
      pseudonymizeAux gen fuel k pw cs = render gen k pos cs (findSpansAux fuel pos pw cs) := by
  intro fuel
  induction fuel with
  | zero =>
    intro k pw pos cs h
    have : cs = [] := List.length_eq_zero.mp (Nat.le_zero.mp h)
    subst this
    rfl
  | succ fuel ih =>
    intro k pw pos cs h
    cases cs with
    | nil => rfl
    | cons c rest =>
      simp only [pseudonymizeAux, findSpansAux]
      cases hm : matchLen pw (c :: rest) with
      | some n =>
        simp only []
        have hn : 0 < n := matchLen_pos hm
        have hlen : ((c :: rest).drop n).length ≤ fuel := by
          simp only [List.length_drop, List.length_cons]
          simp only [List.length_cons] at h
          omega
        simp only [render, Nat.sub_self, List.take_zero, Nat.zero_add,
          List.nil_append]
        rw [ih (k + 1) true (pos + n) ((c :: rest).drop n) hlen]
      | none =>
        simp only []
        rw [render_cons gen k pos c rest _
          (fun s n tl hspan => findSpansAux_start_ge fuel (pos + 1) (isWordChar c) rest s n tl hspan)]
        simp only [List.length_cons] at h
        rw [ih k (isWordChar c) (pos + 1) rest (by omega)]

theorem countAux_eq_spans_length :
    ∀ (fuel pos : Nat) (pw : Bool) (cs : List Char),
      countAux fuel pw cs = (findSpansAux fuel pos pw cs).length := by
  intro fuel
  induction fuel with
  | zero => intro pos pw cs; rfl
  | succ fuel ih =>
    intro pos pw cs
    cases cs with
    | nil => rfl
    | cons c rest =>
      simp only [countAux, findSpansAux]
      cases hm : matchLen pw (c :: rest) with
      | some n =>
        simp only [List.length_cons]
        rw [ih (pos + n) true ((c :: rest).drop n)]
      | none =>
        simp only []
        exact ih (pos + 1) (isWordChar c) rest

/-! ### Name-list loading lemmas -/

theorem pythonLines_append_line (l rest : List Char) (h : '\n' ∉ l) :
    pythonLines (l ++ '\n' :: rest) = (l ++ ['\n']) :: pythonLines rest := by
  induction l with
  | nil => simp [pythonLines]
  | cons c l ih =>
    have hc : ¬c = '\n' := fun e => h (by simp [e])
    have hmem : '\n' ∉ l := fun hm => h (List.mem_cons_of_mem _ hm)
    simp only [List.cons_append, pythonLines, if_neg hc, List.append_eq, ih hmem]

theorem pythonLines_joinLinesNL (ls : List (List Char)) (h : ∀ l ∈ ls, '\n' ∉ l) :
    pythonLines (joinLinesNL ls) = ls.map (fun l => l ++ ['\n']) := by
  induction ls with
  | nil => rfl
  | cons l ls ih =>
    simp only [joinLinesNL, List.map_cons]
    rw [pythonLines_append_line l _ (h l (by simp))]
    rw [ih (fun x hx => h x (by simp [hx]))]

theorem pyStrip_append_newline (l : List Char) : pyStrip (l ++ ['\n']) = pyStrip l := by
  unfold pyStrip
  rw [List.dropWhile_append]
  by_cases he : (l.dropWhile isSpaceWS).isEmpty
  · rw [if_pos he]
    have hnil : l.dropWhile isSpaceWS = [] := by simpa [List.isEmpty_iff] using he
    rw [hnil]
    simp [List.dropWhile, isSpaceWS]
  · rw [if_neg he, List.reverse_append]
    simp [List.dropWhile_cons, isSpaceWS]

/-! ### The claims -/

/--
C1 (amended): for every input and every pseudonym oracle, `pseudonymize_text`
decomposes the text along the matched spans of the detection pattern — every
character outside a matched span is passed through unchanged, in its original
position — and in particular a document with zero matches of the pattern
(capitalized word, one *whitespace character* (`\s`), capitalized word, with
word boundaries) is returned exactly unchanged.
-/
theorem claim_C1_frame_amended (gen : Nat → List Char) (text : List Char) :
    pseudonymize_text gen text = render gen 0 0 text (regexMatches text) ∧
    (regexMatches text = [] → pseudonymize_text gen text = text) := by
  have hmain : pseudonymize_text gen text = render gen 0 0 text (regexMatches text) :=
    pseudonymizeAux_eq_render gen text.length 0 false 0 text le_rfl
  refine ⟨hmain, fun hz => ?_⟩
  rw [hmain, hz]
  rfl

/--
C1 (counterexample to the claim as stated): with the separator read as "one
space", the document `"Ab\tCd"` contains zero name-shaped spans, yet the code
(whose separator class is `\s`, which also matches the tab) does not return it
unchanged.
-/
theorem claim_C1_counterexample :
    spaceSepMatches "Ab\tCd".data = [] ∧
    pseudonymize_text (fun _ => "Jordan Lee".data) "Ab\tCd".data ≠ "Ab\tCd".data := by
  decide

theorem claim_C1_frame_amended_witness :
    regexMatches "no names here".data = [] ∧
    pseudonymize_text (fun _ => "Jordan Lee".data) "no names here".data =
      "no names here".data :=
  ⟨by decide,
   (claim_C1_frame_amended (fun _ => "Jordan Lee".data) "no names here".data).2 (by decide)⟩

/--
C2: for every input, the number of spans replaced by `pseudonymize_text`
(one replacement-function call per substituted span) equals the number of
non-overlapping, left-to-right matches of the detection pattern.
-/
theorem claim_C2_replaced_count (text : List Char) :
    replacedCount text = (regexMatches text).length :=
  countAux_eq_spans_length text.length 0 false text

/--
C3: when the configured name list is non-empty, every generated pseudonym is
a member of that list, and the synthetic generator is never consulted: the
whole pseudonymized output is independent of the `faker` oracle.
-/
theorem claim_C3_list_members_only (names : List (List Char)) (gender : Option Gender)
    (locale : String) (h : names ≠ []) :
    (∀ (fake : FakerOracle) (rand : Nat → Nat) (k : Nat),
      generate_pseudonym names gender locale fake rand k ∈ names) ∧
    (∀ (fake fake' : FakerOracle) (rand : Nat → Nat) (text : List Char),
      pseudonymize_text (generate_pseudonym names gender locale fake rand) text =
        pseudonymize_text (generate_pseudonym names gender locale fake' rand) text) := by
  obtain ⟨a, as, rfl⟩ : ∃ a as, names = a :: as := by
    cases names with
    | nil => exact absurd rfl h
    | cons a as => exact ⟨a, as, rfl⟩
  have hmem : ∀ (fake : FakerOracle) (rand : Nat → Nat) (k : Nat),
      generate_pseudonym (a :: as) gender locale fake rand k ∈ a :: as := by
    intro fake rand k
    have hlt : rand k % (a :: as).length < (a :: as).length :=
      Nat.mod_lt _ (by simp)
    simp only [generate_pseudonym, List.isEmpty_cons, if_false, Bool.false_eq_true]
    rw [List.getD_eq_getElem _ _ hlt]
    exact List.getElem_mem hlt
  refine ⟨hmem, fun fake fake' rand text => ?_⟩
  have hfun : generate_pseudonym (a :: as) gender locale fake rand =
      generate_pseudonym (a :: as) gender locale fake' rand := by
    funext k
    simp [generate_pseudonym]
  rw [hfun]

theorem claim_C3_list_members_only_witness :
    (["Jordan Lee".data] ≠ ([] : List (List Char))) ∧
    generate_pseudonym ["Jordan Lee".data] none "en_US"
      ⟨fun _ _ => [], fun _ _ => [], fun _ _ => []⟩ (fun _ => 7) 0 ∈
      ["Jordan Lee".data] :=
  ⟨by decide,
   (claim_C3_list_members_only ["Jordan Lee".data] none "en_US" (by decide)).1
     ⟨fun _ _ => [], fun _ _ => [], fun _ _ => []⟩ (fun _ => 7) 0⟩

/--
C4: with the singleton name list `["Jordan Lee"]` — whatever the gender,
locale, `faker` oracle and random source — the scenario input is rewritten to
`"Jordan Lee went to Jordan Lee with Jordan Lee."` exactly as the spec's
scenario states, the three matched spans being "Alice Smith", "New York" and
"Bob Jones".
-/
theorem claim_C4_scenario (gender : Option Gender) (locale : String)
    (fake : FakerOracle) (rand : Nat → Nat) :
    pseudonymize_text (generate_pseudonym ["Jordan Lee".data] gender locale fake rand)
      "Alice Smith went to New York with Bob Jones.".data =
    "Jordan Lee went to Jordan Lee with Jordan Lee.".data := by
  have hgen : generate_pseudonym ["Jordan Lee".data] gender locale fake rand =
      fun _ => "Jordan Lee".data := by
    funext k
    simp [generate_pseudonym, Nat.mod_one]
  rw [hgen]
  decide

/--
C5: with a single-entry name list the whole pipeline is deterministic: two
runs on the same input agree whatever the state of the random source (and of
the synthetic generator) in each run.
-/
theorem claim_C5_singleton_deterministic (nm : List Char)
    (gender gender' : Option Gender) (locale locale' : String)
    (fake fake' : FakerOracle) (rand rand' : Nat → Nat) (text : List Char) :
    pseudonymize_text (generate_pseudonym [nm] gender locale fake rand) text =
    pseudonymize_text (generate_pseudonym [nm] gender' locale' fake' rand') text := by
  have h1 : generate_pseudonym [nm] gender locale fake rand = fun _ => nm := by
    funext k
    simp [generate_pseudonym, Nat.mod_one]
  have h2 : generate_pseudonym [nm] gender' locale' fake' rand' = fun _ => nm := by
    funext k
    simp [generate_pseudonym, Nat.mod_one]
  rw [h1, h2]

/--
C6: the name list loaded from a file is exactly the file's lines in file
order, each line stripped of surrounding whitespace (the line terminator
included); nothing is filtered, so duplicates are preserved and empty or
all-whitespace lines become empty-string entries.
-/
theorem claim_C6_lines_stripped (ls : List (List Char)) (h : ∀ l ∈ ls, '\n' ∉ l) :
    namesFromFile (joinLinesNL ls) = ls.map pyStrip ∧
    (namesFromFile (joinLinesNL ls)).length = ls.length := by
  have key : namesFromFile (joinLinesNL ls) = ls.map pyStrip := by
    unfold namesFromFile
    rw [pythonLines_joinLinesNL ls h, List.map_map]
    exact List.map_congr_left fun a _ => pyStrip_append_newline a
  exact ⟨key, by rw [key, List.length_map]⟩

theorem claim_C6_lines_stripped_witness :
    namesFromFile (joinLinesNL [['A', 'b'], [], [' ', 'C', 'd', ' '], ['A', 'b']]) =
      [['A', 'b'], [], [' ', 'C', 'd', ' '], ['A', 'b']].map pyStrip ∧
    [['A', 'b'], [], [' ', 'C', 'd', ' '], ['A', 'b']].map pyStrip =
      [['A', 'b'], [], ['C', 'd'], ['A', 'b']] :=
  ⟨(claim_C6_lines_stripped [['A', 'b'], [], [' ', 'C', 'd', ' '], ['A', 'b']]
      (by decide)).1,
   by decide⟩

/--
C7: with an empty name list, each generation call dispatches on the gender
setting — `male` to the generator's male-name operation, `female` to its
female-name operation, unset to its unconstrained full-name operation — for
the configured locale.
-/
theorem claim_C7_gender_dispatch (locale : String) (fake : FakerOracle)
    (rand : Nat → Nat) (k : Nat) :
    generate_pseudonym [] (some Gender.male) locale fake rand k = fake.name_male locale k ∧
    generate_pseudonym [] (some Gender.female) locale fake rand k = fake.name_female locale k ∧
    generate_pseudonym [] none locale fake rand k = fake.name locale k :=
  ⟨rfl, rfl, rfl⟩

/--
C8: when the input file does not exist (and whatever became of the name-list
option), the run exits with status 1 after printing an error message carrying
the `FileNotFoundError`, and the output file is never written.
-/
theorem claim_C8_missing_input (fs : List (String × List Char))
    (input_file output_file : String) (name_list : Option String)
    (gender : Option Gender) (locale : String) (fake : FakerOracle)
    (rand : Nat → Nat) (h : fs.lookup input_file = none) :
    (runMain fs input_file output_file name_list gender locale fake rand).exitCode = 1 ∧
    (runMain fs input_file output_file name_list gender locale fake rand).written = none ∧
    ∃ p, (runMain fs input_file output_file name_list gender locale fake rand).printed =
        some p ∧ p.fnfStyle = true := by
  cases name_list with
  | none =>
    refine ⟨?_, ?_, Printed.errorUnexpected (PyError.fileNotFound input_file), ?_, rfl⟩ <;>
      simp [runMain, mainAfterInit, h]
  | some p =>
    cases hl : fs.lookup p with
    | none =>
      refine ⟨?_, ?_, Printed.errorInit (PyError.fileNotFound p), ?_, rfl⟩ <;>
        simp [runMain, hl]
    | some content =>
      refine ⟨?_, ?_, Printed.errorUnexpected (PyError.fileNotFound input_file), ?_, rfl⟩ <;>
        simp [runMain, hl, mainAfterInit, h]

theorem claim_C8_missing_input_witness :
    (runMain [] "in.txt" "out.txt" none none "en_US"
        ⟨fun _ _ => [], fun _ _ => [], fun _ _ => []⟩ (fun _ => 0)).exitCode = 1 ∧
    (runMain [] "in.txt" "out.txt" none none "en_US"
        ⟨fun _ _ => [], fun _ _ => [], fun _ _ => []⟩ (fun _ => 0)).written = none ∧
    ∃ p, (runMain [] "in.txt" "out.txt" none none "en_US"
        ⟨fun _ _ => [], fun _ _ => [], fun _ _ => []⟩ (fun _ => 0)).printed =
        some p ∧ p.fnfStyle = true :=
  claim_C8_missing_input [] "in.txt" "out.txt" none none "en_US"
    ⟨fun _ _ => [], fun _ _ => [], fun _ _ => []⟩ (fun _ => 0) rfl

/--
C9: when a name-list path is supplied but missing from the file system,
construction fails with a `FileNotFoundError`, the process exits with status
1, the only attempted read is the name-list file — the input file is never
opened — and nothing is written.
-/
theorem claim_C9_missing_name_list (fs : List (String × List Char))
    (input_file output_file p : String) (gender : Option Gender)
    (locale : String) (fake : FakerOracle) (rand : Nat → Nat)
    (h : fs.lookup p = none) :
    (runMain fs input_file output_file (some p) gender locale fake rand).exitCode = 1 ∧
    (runMain fs input_file output_file (some p) gender locale fake rand).printed =
      some (Printed.errorInit (PyError.fileNotFound p)) ∧
    (runMain fs input_file output_file (some p) gender locale fake rand).reads = [p] ∧
    (runMain fs input_file output_file (some p) gender locale fake rand).written = none := by
  refine ⟨?_, ?_, ?_, ?_⟩ <;> simp [runMain, h]

theorem claim_C9_missing_name_list_witness :
    (runMain [("in.txt", [])] "in.txt" "out.txt" (some "names.txt") none "en_US"
        ⟨fun _ _ => [], fun _ _ => [], fun _ _ => []⟩ (fun _ => 0)).exitCode = 1 ∧
    (runMain [("in.txt", [])] "in.txt" "out.txt" (some "names.txt") none "en_US"
        ⟨fun _ _ => [], fun _ _ => [], fun _ _ => []⟩ (fun _ => 0)).printed =
      some (Printed.errorInit (PyError.fileNotFound "names.txt")) ∧
    (runMain [("in.txt", [])] "in.txt" "out.txt" (some "names.txt") none "en_US"
        ⟨fun _ _ => [], fun _ _ => [], fun _ _ => []⟩ (fun _ => 0)).reads = ["names.txt"] ∧
    (runMain [("in.txt", [])] "in.txt" "out.txt" (some "names.txt") none "en_US"
        ⟨fun _ _ => [], fun _ _ => [], fun _ _ => []⟩ (fun _ => 0)).written = none :=
  claim_C9_missing_name_list [("in.txt", [])] "in.txt" "out.txt" "names.txt" none
    "en_US" ⟨fun _ _ => [], fun _ _ => [], fun _ _ => []⟩ (fun _ => 0) rfl

/--
C10: when the name-list file exists but is empty, construction succeeds with
an empty name list; the run completes, its output pseudonymized through the
synthetic generator with the gender filter applied — even though the warning
that `--gender` would be ignored in favour of the name list was emitted.
-/
theorem claim_C10_empty_name_list_file (fs : List (String × List Char))
    (input_file output_file p : String) (g : Gender) (locale : String)
    (fake : FakerOracle) (rand : Nat → Nat) (text : List Char)
    (hp : fs.lookup p = some []) (hin : fs.lookup input_file = some text) :
    namesFromFile [] = [] ∧
    (runMain fs input_file output_file (some p) (some g) locale fake rand).warnedGenderIgnored
      = true ∧
    (runMain fs input_file output_file (some p) (some g) locale fake rand).exitCode = 0 ∧
    (runMain fs input_file output_file (some p) (some g) locale fake rand).written =
      some (output_file,
        pseudonymize_text (generate_pseudonym [] (some g) locale fake rand) text) ∧
    (∀ k, generate_pseudonym [] (some g) locale fake rand k =
      (match g with
       | Gender.male => fake.name_male
       | Gender.female => fake.name_female) locale k) := by
  refine ⟨rfl, ?_, ?_, ?_, ?_⟩
  · simp [runMain, hp, mainAfterInit, hin]
  · simp [runMain, hp, mainAfterInit, hin]
  · simp [runMain, hp, mainAfterInit, hin, namesFromFile, pythonLines]
  · intro k
    cases g <;> rfl

theorem claim_C10_empty_name_list_file_witness :
    namesFromFile [] = [] ∧
    (runMain [("names.txt", []), ("in.txt", "Alice Smith".data)] "in.txt" "out.txt"
        (some "names.txt") (some Gender.male) "en_US"
        ⟨fun _ _ => "Max Power".data, fun _ _ => [], fun _ _ => []⟩
        (fun _ => 0)).warnedGenderIgnored = true ∧
    (runMain [("names.txt", []), ("in.txt", "Alice Smith".data)] "in.txt" "out.txt"
        (some "names.txt") (some Gender.male) "en_US"
        ⟨fun _ _ => "Max Power".data, fun _ _ => [], fun _ _ => []⟩
        (fun _ => 0)).exitCode = 0 ∧
    (runMain [("names.txt", []), ("in.txt", "Alice Smith".data)] "in.txt" "out.txt"
        (some "names.txt") (some Gender.male) "en_US"
        ⟨fun _ _ => "Max Power".data, fun _ _ => [], fun _ _ => []⟩
        (fun _ => 0)).written =
      some ("out.txt",
        pseudonymize_text
          (generate_pseudonym [] (some Gender.male) "en_US"
            ⟨fun _ _ => "Max Power".data, fun _ _ => [], fun _ _ => []⟩ (fun _ => 0))
          "Alice Smith".data) ∧
    (∀ k, generate_pseudonym [] (some Gender.male) "en_US"
        ⟨fun _ _ => "Max Power".data, fun _ _ => [], fun _ _ => []⟩ (fun _ => 0) k =
      (match Gender.male with
       | Gender.male => fun _ _ => "Max Power".data
       | Gender.female => fun _ _ => []) "en_US" k) :=
  claim_C10_empty_name_list_file
    [("names.txt", []), ("in.txt", "Alice Smith".data)] "in.txt" "out.txt"
    "names.txt" Gender.male "en_US"
    ⟨fun _ _ => "Max Power".data, fun _ _ => [], fun _ _ => []⟩ (fun _ => 0)
    "Alice Smith".data rfl rfl

end DsoNamePseudonymizer
